import Mathlib

/-!
Verification of the ThreatSentry sensor-fusion engine against its
natural-language specification.  The Rust sources under src/ are embedded
shallowly: f32 arithmetic is modelled by exact rationals (the scores examined
here are far from any binary rounding boundary), machine integers by ℕ, and
each stateful monitor by an explicit state record plus a step function.
-/

namespace ThreatSentry

/-- Rust saturating cast of an f32 to u8 (the `as u8` operator), modelled on
exact rationals: truncation toward zero, with negative inputs going to 0 and
inputs above 255 going to 255. -/
def ratToU8 (q : ℚ) : ℕ :=
  if q < 0 then 0 else min 255 ⌊q⌋.toNat

theorem ratToU8_coe_nat (n : ℕ) (hn : n ≤ 255) : ratToU8 (n : ℚ) = n := by
  unfold ratToU8
  rw [if_neg (not_lt.mpr (by positivity)), Int.floor_natCast]
  simp [min_eq_right hn]

theorem ratToU8_eq_of_eq_nat {q : ℚ} {n : ℕ} (h : q = (n : ℚ)) (hn : n ≤ 255) :
    ratToU8 q = n := by
  rw [h]
  exact ratToU8_coe_nat n hn

/-- Rust `str::to_lowercase`, modelled per character; on the ASCII keyword
tables and process names involved here the two coincide. -/
def lowerList (s : List Char) : List Char :=
  s.map Char.toLower

/-- Rust `str::contains` (substring search) on character lists. -/
def containsSub : List Char → List Char → Bool
  | [], needle => needle.isEmpty
  | c :: t, needle => needle.isPrefixOf (c :: t) || containsSub t needle

theorem containsSub_of_infix : ∀ {l n : List Char}, n <:+: l → containsSub l n = true := by
  intro l
  induction l with
  | nil =>
    intro n h
    rw [List.infix_nil] at h
    subst h
    rfl
  | cons c t ih =>
    intro n h
    rcases List.infix_cons_iff.mp h with hp | hi
    · simp [containsSub, List.isPrefixOf_iff_prefix, hp]
    · simp [containsSub, ih hi]

/-- src/src/kernel_monitor.rs `ProcessInfo`. -/
structure ProcessInfo where
  name : List Char
  pid : ℕ
  cpu_usage : ℚ
  memory_usage : ℚ
  suspicious_score : ℕ
  deriving DecidableEq

/-- src/src/kernel_monitor.rs `UsbDeviceInfo` (the insertion time plays no
role in any scoring path and is omitted). -/
structure UsbDeviceInfo where
  device_id : List Char
  description : List Char
  deriving DecidableEq

/-- src/src/kernel_monitor.rs `is_process_suspicious`: the fixed table of
suspicious name fragments. -/
def suspiciousNames : List (List Char) :=
  [ "miner".toList, "xmrig".toList, "cryptonight".toList, "monero".toList,
    "ethminer".toList, "cgminer".toList, "bfgminer".toList, "nicehash".toList,
    "backdoor".toList, "trojan".toList, "keylogger".toList, "spyware".toList,
    "malware".toList, "virus".toList, "rootkit".toList, "exploit".toList ]

/-- src/src/kernel_monitor.rs `is_process_suspicious`: CPU above 70 percent,
memory above 500 MB (the field is in bytes), or a case-insensitive name match
against the table. -/
def is_process_suspicious (p : ProcessInfo) : Bool :=
  decide (70 < p.cpu_usage) || decide ((500000000 : ℚ) < p.memory_usage) ||
    suspiciousNames.any (fun kw => containsSub (lowerList p.name) kw)

/-- src/src/kernel_monitor.rs `start_monitoring`, process branch (lines
66-87): the freshly flagged set is the filter of the fetched process list, and
the published suspicious list is overwritten only when that set is non-empty
(`if !suspicious.is_empty()`). -/
def processCycle (prev fetched : List ProcessInfo) : List ProcessInfo :=
  let susp := fetched.filter (fun p => is_process_suspicious p)
  if susp.isEmpty then prev else susp

/-- Modelled from the spec wording of claim C3 ("replaces the suspicious list
wholesale each cycle"): after every successful cycle the published list would
be exactly the freshly flagged set, even when empty.  Kept for comparison with
`processCycle`. -/
def specProcessCycle (_prev fetched : List ProcessInfo) : List ProcessInfo :=
  fetched.filter (fun p => is_process_suspicious p)

/-- src/src/kernel_monitor.rs `calculate_process_score`: the per-keyword score
floor table. -/
def suspiciousNameScores : List (List Char × ℕ) :=
  [ ( "miner".toList, 50), ( "xmrig".toList, 70), ( "cryptonight".toList, 60),
    ( "monero".toList, 50), ( "ethminer".toList, 60), ( "cgminer".toList, 60),
    ( "bfgminer".toList, 60), ( "nicehash".toList, 50), ( "backdoor".toList, 80),
    ( "trojan".toList, 90), ( "keylogger".toList, 90), ( "spyware".toList, 80),
    ( "malware".toList, 90), ( "virus".toList, 90), ( "rootkit".toList, 90),
    ( "exploit".toList, 70) ]

/-- One iteration of the keyword loop in `calculate_process_score`:
`score = score.max(name_score)` when the lowercased name contains the keyword. -/
def nameFloorStep (lname : List Char) (s : ℕ) (kv : List Char × ℕ) : ℕ :=
  if containsSub lname kv.1 then max s kv.2 else s

/-- src/src/kernel_monitor.rs `calculate_process_score`: CPU bands plus memory
bands (memory converted from bytes to MB), raised to the per-keyword floors,
capped at 100. -/
def calculate_process_score (name : List Char) (cpu memory : ℚ) : ℕ :=
  let cpuPart : ℕ :=
    if 90 < cpu then 40 else if 70 < cpu then 30 else if 50 < cpu then 20 else 0
  let memMB : ℚ := memory / 1000000
  let memPart : ℕ :=
    if 1000 < memMB then 30 else if 500 < memMB then 20 else if 200 < memMB then 10 else 0
  let floored := suspiciousNameScores.foldl (nameFloorStep (lowerList name)) (cpuPart + memPart)
  min floored 100

/-- The shared state read by src/src/kernel_monitor.rs `get_threat_score`. -/
structure KernelState where
  suspicious_processes : List ProcessInfo
  new_usb_devices : List UsbDeviceInfo
  deriving DecidableEq

/-- src/src/kernel_monitor.rs `get_threat_score` (lines 137-168): f32
arithmetic on exact rationals, `as u8` as truncation. -/
def kernel_get_threat_score (s : KernelState) : ℕ :=
  let process_score : ℕ :=
    if s.suspicious_processes.isEmpty then 0
    else
      let max_score := (s.suspicious_processes.map (fun p => p.suspicious_score)).foldl max 0
      let count_factor : ℚ := ((min s.suspicious_processes.length 5 : ℕ) : ℚ) / 5
      ratToU8 ((max_score : ℚ) * (7/10 + 3/10 * count_factor))
  let usb_score : ℕ :=
    if s.new_usb_devices.isEmpty then 0
    else
      let count_factor : ℚ := ((min s.new_usb_devices.length 3 : ℕ) : ℚ) / 3
      ratToU8 (30 * (1 + count_factor))
  min (max process_score usb_score) 100

/-- The state of src/src/thermal_monitor.rs `ThermalMonitor` relevant to
`get_threat_score` (the last-check instant is real time and does not enter the
score). -/
structure ThermalState where
  last_temp : ℚ
  spike_detected : Bool
  temperature_history : List ℚ
  cpu_usage_history : List ℚ
  deriving DecidableEq

/-- Mean of a rational list, `sum / len` as in `get_threat_score`; the source
only ever takes it on non-empty histories. -/
def listMean (l : List ℚ) : ℚ := l.sum / (l.length : ℚ)

/-- Sample variance over n−1 as computed in `get_threat_score` (0 when the
history has fewer than 2 samples); the divisor mirrors the usize subtraction
`(len - 1) as f32`. -/
def sampleVariance (l : List ℚ) : ℚ :=
  if 1 < l.length then
    ((l.map (fun x => (x - listMean l) ^ 2)).sum) / (((l.length - 1 : ℕ)) : ℚ)
  else 0

/-- src/src/thermal_monitor.rs `get_threat_score` (lines 121-173): 80 flat when
the spike flag is latched; otherwise, when both histories are non-empty, the
truncated sum of the capped temperature, CPU and variance terms; 0 when no
data is available. -/
def thermal_get_threat_score (s : ThermalState) : ℕ :=
  if s.spike_detected then 80
  else if !s.temperature_history.isEmpty && !s.cpu_usage_history.isEmpty then
    let avg_temp := listMean s.temperature_history
    let avg_cpu := listMean s.cpu_usage_history
    let temp_variance := sampleVariance s.temperature_history
    let temp_score : ℚ := if 60 < avg_temp then min ((avg_temp - 60) * 2) 40 else 0
    let cpu_score : ℚ := if 80 < avg_cpu then min ((avg_cpu - 80) * 2) 40 else 0
    let variance_score : ℚ := min (temp_variance * 10) 20
    ratToU8 (temp_score + cpu_score + variance_score)
  else 0

/-- The shared history-append pattern
`v.push(x); if v.len() > cap { v.remove(0); }` used with cap 10 by
src/src/thermal_monitor.rs `check_temperature` (lines 92-101) and with cap 100
by the engine-level histories of src/src/gui.rs `start_monitoring` (lines
159-165, 219-231). -/
def appendCapped {α : Type} (cap : ℕ) (h : List α) (x : α) : List α :=
  let h2 := h ++ [x]
  if cap < h2.length then h2.drop 1 else h2

/-- The shared state of src/src/mic_monitor.rs `MicMonitor` relevant to the
latch and the threat score. -/
structure MicState where
  is_monitoring : Bool
  high_freq_detected : Bool
  frequency_power : ℚ
  deriving DecidableEq

/-- The operations that touch the MicMonitor shared state: `start_monitoring`
and `stop_monitoring` toggle the running flag, and one pass of the FFT thread
threshold check (lines 151-157) latches the flag and stores the band power
when the average ultrasonic power exceeds 0.2. -/
inductive MicEvent where
  | startEvt : MicEvent
  | stopEvt : MicEvent
  | detect (avg_power : ℚ) : MicEvent
  deriving DecidableEq

/-- The state built by `MicMonitor::new`. -/
def micInit : MicState :=
  { is_monitoring := false, high_freq_detected := false, frequency_power := 0 }

/-- One shared-state update of the MicMonitor.  `stop_monitoring` (lines
287-297) clears only the running flag and the stream handle; it does not touch
the latch or the stored power. -/
def micStep (s : MicState) : MicEvent → MicState
  | .startEvt => { s with is_monitoring := true }
  | .stopEvt => { s with is_monitoring := false }
  | .detect p =>
    if 1/5 < p then { s with high_freq_detected := true, frequency_power := p } else s

/-- A MicMonitor history: the state after a sequence of operations from the
freshly constructed monitor. -/
def micRun (evts : List MicEvent) : MicState := evts.foldl micStep micInit

/-- src/src/mic_monitor.rs `get_threat_score` (lines 299-316). -/
def mic_get_threat_score (s : MicState) : ℕ :=
  if s.high_freq_detected then
    let score : ℚ := 50 + s.frequency_power * 500
    let capped : ℚ := if 100 < score then 100 else score
    ratToU8 capped
  else 0

/-- The monitor-lifecycle protocol shared by every sensor (modelled after
src/src/mic_monitor.rs lines 33-39 and 287-297): one shared running flag, a
set of spawned monitoring loops, and a log of the flag values the loops
observe at the top of their iterations. -/
structure LoopSystem where
  running_flag : Bool
  loops_alive : List Bool
  observations : List (ℕ × Bool)
  deriving DecidableEq

/-- Lifecycle events: a start call sets the flag and spawns a fresh loop, a
stop call clears the flag, and `observe i` is loop i reading the flag at the
top of its iteration (exiting when it reads false). -/
inductive LoopEvent where
  | startCall : LoopEvent
  | stopCall : LoopEvent
  | observe (i : ℕ) : LoopEvent
  deriving DecidableEq

/-- One lifecycle transition. -/
def loopStep (s : LoopSystem) : LoopEvent → LoopSystem
  | .startCall => { s with running_flag := true, loops_alive := s.loops_alive ++ [true] }
  | .stopCall => { s with running_flag := false }
  | .observe i =>
    if h : i < s.loops_alive.length then
      if s.loops_alive.get ⟨i, h⟩ then
        { s with loops_alive := s.loops_alive.set i s.running_flag,
                 observations := s.observations ++ [(i, s.running_flag)] }
      else s
    else s

/-- The idle system: flag down, no loop spawned yet. -/
def loopInit : LoopSystem :=
  { running_flag := false, loops_alive := [], observations := [] }

/-- The lifecycle state after a sequence of events from the idle system. -/
def loopRun (evts : List LoopEvent) : LoopSystem := evts.foldl loopStep loopInit

/-- src/src/gui.rs lines 239-244: the unconditional per-iteration combined
score, the truncated mean of the mic, thermal and kernel scores. -/
def combinedScore3 (mic thermal kernel : ℕ) : ℕ := (mic + thermal + kernel) / 3

/-- src/src/gui.rs lines 269-275: the recompute performed inside a successful
mail cycle after pushing the mail score. -/
def combinedScore4 (mic thermal kernel mail : ℕ) : ℕ := (mic + thermal + kernel + mail) / 4

/-- The sequence of combined-score values published during one iteration of
the gui monitoring loop (src/src/gui.rs lines 233-280): first the
unconditional 3-term recompute, then, only when the 60-second mail cycle runs
and its fetch succeeds with maximum URL score `mail`, the 4-term recompute. -/
def loopIterationCombined (mic thermal kernel : ℕ) : Option ℕ → List ℕ
  | some mail => [combinedScore3 mic thermal kernel, combinedScore4 mic thermal kernel mail]
  | none => [combinedScore3 mic thermal kernel]

/-- src/src/main.rs lines 477-478: the CLI full-scan combined score, always a
4-way truncated mean with the email term 0 when no credentials were given or
the fetch failed. -/
def runFullScanCombined (mic thermal kernel email : ℕ) : ℕ :=
  (mic + thermal + kernel + email) / 4

/-- Modelled from the claim C1 wording: every recompute would use the
truncated mean of the currently-known per-sensor scores — a 3-term mean while
no mail score is available and a 4-term mean once one is known.  Kept for
comparison with `loopIterationCombined` and `runFullScanCombined`. -/
def claimC1Combined (mic thermal kernel : ℕ) : Option ℕ → ℕ
  | some mail => (mic + thermal + kernel + mail) / 4
  | none => (mic + thermal + kernel) / 3

/-- First fixed sample message body returned by `fetch_emails` when the IMAP
collaborator is unavailable or yields no bodies. -/
def sampleBody1 : List Char := "Check out this link: https://example.com/login".toList

/-- Second fixed sample message body. -/
def sampleBody2 : List Char := "Important security update: https://secure-site.com/update".toList

/-- The fixed sample data of src/src/email_monitor.rs `fetch_emails`. -/
def sampleBodies : List (List Char) := [sampleBody1, sampleBody2]

/-- ASCII whitespace as matched by the regex class backslash-s. -/
def isWS (c : Char) : Bool :=
  c == ' ' || c == '\t' || c == '\n' || c == '\r' || c == '\x0b' || c == '\x0c'

/-- The first character class of the URL regex of `extract_urls`: anything but
whitespace, slash, dollar, dot, question mark and hash. -/
def urlClassOK (c : Char) : Bool :=
  !(isWS c || c == '/' || c == '$' || c == '.' || c == '?' || c == '#')

/-- Strip a literal from the front of a character list, returning the rest. -/
def dropLit : List Char → List Char → Option (List Char)
  | [], s => some s
  | _ :: _, [] => none
  | c :: ns, d :: s => if c == d then dropLit ns s else none

/-- Match the part of the URL regex after the scheme: the literal colon-slash-
slash, one character of the restricted class, one character other than a
newline, then a greedy run of non-whitespace.  Returns the matched text
(scheme excluded) and the remaining input. -/
def matchTail (r : List Char) : Option (List Char × List Char) :=
  match dropLit ( "://".toList) r with
  | none => none
  | some r2 =>
    match r2 with
    | [] => none
    | c1 :: r3 =>
      if urlClassOK c1 then
        match r3 with
        | [] => none
        | c2 :: r4 =>
          if c2 == '\n' then none
          else
            some ( "://".toList ++ c1 :: c2 :: r4.takeWhile (fun c => !isWS c),
                   r4.dropWhile (fun c => !isWS c))
      else none

/-- Try the URL regex of `extract_urls` at the current position: the scheme
http with an optional greedy s, then `matchTail`. -/
def matchUrlAt (s : List Char) : Option (List Char × List Char) :=
  match dropLit ( "http".toList) s with
  | none => none
  | some r1 =>
    match r1 with
    | 's' :: r1s =>
      match matchTail r1s with
      | some (m, rest) => some ( "https".toList ++ m, rest)
      | none =>
        match matchTail r1 with
        | some (m, rest) => some ( "http".toList ++ m, rest)
        | none => none
    | _ =>
      match matchTail r1 with
      | some (m, rest) => some ( "http".toList ++ m, rest)
      | none => none

/-- Leftmost non-overlapping scan of `captures_iter`, fuelled by the input
length (every match consumes at least one character). -/
def urlScanAux : ℕ → List Char → List (List Char)
  | 0, _ => []
  | _ + 1, [] => []
  | fuel + 1, c :: t =>
    match matchUrlAt (c :: t) with
    | some (m, rest) => m :: urlScanAux fuel rest
    | none => urlScanAux fuel t

/-- src/src/email_monitor.rs `extract_urls`: all URL-shaped substrings of all
message bodies, in order. -/
def extract_urls (emails : List (List Char)) : List (List Char) :=
  (emails.map (fun e => urlScanAux e.length e)).flatten

/-- src/src/email_monitor.rs `scan_urls`: 70 for a URL containing the text
login, 30 otherwise. -/
def scan_urls (urls : List (List Char)) : List (List Char × ℕ) :=
  urls.map (fun url => (url, if containsSub url ( "login".toList) then 70 else 30))

/-- Outcome of the IMAP collaborator inside `fetch_emails`: the connect/login
step of `connect_to_imap` fails, or it succeeds and a later session operation
(select, examine, fetch, logout) fails, or everything succeeds and yields the
extracted message bodies. -/
inductive ImapOutcome where
  | connectFail (e : String) : ImapOutcome
  | sessionFail (e : String) : ImapOutcome
  | fetched (bodies : List (List Char)) : ImapOutcome

/-- src/src/email_monitor.rs `fetch_emails` (lines 35-94): a connect or login
failure is swallowed and replaced by `Ok(sampleBodies)`; a later session error
propagates as `Err`; a successful fetch returning no bodies is also replaced
by the sample data. -/
def fetch_emails : ImapOutcome → Except String (List (List Char))
  | .connectFail _ => .ok sampleBodies
  | .sessionFail e => .error e
  | .fetched bodies => if bodies.isEmpty then .ok sampleBodies else .ok bodies

/-- src/src/gui.rs lines 249-280: one 60-second mail cycle acting on the
published scored-URL list and mail score.  On `Ok` both are recomputed and
replaced wholesale; on `Err` only a warning is printed and both are left
unchanged. -/
def emailCycle (urls : List (List Char × ℕ)) (score : ℕ) :
    Except String (List (List Char)) → (List (List Char × ℕ)) × ℕ
  | .ok emails =>
    let scored := scan_urls (extract_urls emails)
    (scored, (scored.map (fun u => u.2)).foldl max 0)
  | .error _ => (urls, score)

/-- The scored-URL list produced from the sample bodies. -/
def scoredSampleUrls : List (List Char × ℕ) :=
  [ ( "https://example.com/login".toList, 70),
    ( "https://secure-site.com/update".toList, 30) ]

/-! Claim C1 -/

/-- Claim C1 counterexample: the claim says a recompute uses the 4-term mean
once a mail score has been folded in, and a 3-term mean only while none is
available.  In an iteration whose mail cycle is not due, the loop publishes
the 3-term mean even though a mail score (here 100) is already known, giving
40 where the claim demands 55; and the CLI full scan with no mail score
divides by 4 anyway, giving 30 where the claim demands 40. -/
theorem c1_counterexample :
    loopIterationCombined 40 60 20 none = [40] ∧
    claimC1Combined 40 60 20 (some 100) = 55 ∧
    loopIterationCombined 40 60 20 none ≠ [claimC1Combined 40 60 20 (some 100)] ∧
    runFullScanCombined 40 60 20 0 = 30 ∧
    claimC1Combined 40 60 20 none = 40 ∧
    runFullScanCombined 40 60 20 0 ≠ claimC1Combined 40 60 20 none := by
  decide

/-- Claim C1 (amended): the fusion loop publishes the truncated 3-term mean
⌊(mic+thermal+kernel)/3⌋ at every iteration regardless of whether a mail score
is known, and additionally publishes the truncated 4-term mean
⌊(mic+thermal+kernel+mail)/4⌋ in the iteration of a successful mail cycle; the
CLI full scan always divides by 4, with mail term 0 when absent.  For mic=40,
thermal=60, kernel=20 the loop publishes 40, and folding in mail=100 publishes
55. -/
theorem c1_combined_amended (mic thermal kernel mail : ℕ) :
    loopIterationCombined mic thermal kernel none = [(mic + thermal + kernel) / 3] ∧
    loopIterationCombined mic thermal kernel (some mail) =
      [(mic + thermal + kernel) / 3, (mic + thermal + kernel + mail) / 4] ∧
    combinedScore4 mic thermal kernel mail = claimC1Combined mic thermal kernel (some mail) ∧
    runFullScanCombined mic thermal kernel mail = (mic + thermal + kernel + mail) / 4 ∧
    loopIterationCombined 40 60 20 (some 100) = [40, 55] := by
  exact ⟨rfl, rfl, rfl, rfl, by decide⟩

/-! Claim C2 -/

theorem appendCapped_foldl {α : Type} (cap : ℕ) :
    ∀ (xs s : List α), s.length ≤ cap →
      List.foldl (appendCapped cap) s xs = (s ++ xs).drop (s.length + xs.length - cap) := by
  intro xs
  induction xs with
  | nil =>
    intro s hs
    simp [Nat.sub_eq_zero_of_le hs]
  | cons x t ih =>
    intro s hs
    have e1 : (s ++ [x]) ++ t = s ++ x :: t := by simp
    rw [List.foldl_cons]
    rcases lt_or_eq_of_le hs with hlt | heq
    · have hfull : ¬cap < (s ++ [x]).length := by
        simp only [List.length_append, List.length_singleton]
        omega
      have hstep : appendCapped cap s x = s ++ [x] := by
        simp only [appendCapped]
        rw [if_neg hfull]
      have hle : (s ++ [x]).length ≤ cap := by
        simp only [List.length_append, List.length_singleton]
        omega
      rw [hstep, ih (s ++ [x]) hle]
      have e2 : (s ++ [x]).length + t.length - cap = s.length + (x :: t).length - cap := by
        simp only [List.length_append, List.length_singleton, List.length_cons,
          List.length_nil]
        omega
      rw [e1, e2]
    · have hfull : cap < (s ++ [x]).length := by
        simp only [List.length_append, List.length_singleton]
        omega
      have hstep : appendCapped cap s x = List.drop 1 (s ++ [x]) := by
        simp only [appendCapped]
        rw [if_pos hfull]
      have hlen : (List.drop 1 (s ++ [x])).length = cap := by
        simp only [List.length_drop, List.length_append, List.length_singleton]
        omega
      rw [hstep, ih _ (le_of_eq hlen), hlen]
      have h1 : (List.drop 1 (s ++ [x])) ++ t = List.drop 1 ((s ++ [x]) ++ t) :=
        (List.drop_append_of_le_length (by simp)).symm
      have h2 : cap + t.length - cap = t.length := by omega
      rw [h2, h1, List.drop_drop, e1]
      have h3 : s.length + (x :: t).length - cap = t.length + 1 := by
        simp only [List.length_cons]
        omega
      rw [h3, Nat.add_comm 1 t.length]

/-- The 101 values 0,1,...,100 appended in order. -/
def xs101 : List ℚ := (List.range 101).map (fun n => (n : ℚ))

/-- Claim C2 counterexample: the thermal monitor temperature history is capped
at 10, not 100 — appending the 101 values of `xs101` through the source append
pattern of src/src/thermal_monitor.rs lines 92-101 leaves length 10. -/
theorem c2_counterexample :
    (List.foldl (appendCapped 10) ([] : List ℚ) xs101).length = 10 ∧
    (List.foldl (appendCapped 10) ([] : List ℚ) xs101).length ≠ 100 := by
  have h := appendCapped_foldl 10 xs101 [] (by simp)
  rw [h]
  simp only [List.nil_append, List.length_nil, Nat.zero_add, List.length_drop]
  constructor
  · have : xs101.length = 101 := by decide
    omega
  · have : xs101.length = 101 := by decide
    omega

/-- Claim C2 (amended): the engine-level histories (temperature, microphone
power, time points in src/src/gui.rs) are capped at 100 and keep exactly the
last 100 appended values in insertion order once more than 100 have been
appended; the thermal monitor internal temperature and CPU histories use the
same FIFO pattern but with capacity 10, keeping the last 10. -/
theorem c2_history_amended (xs : List ℚ) :
    (100 < xs.length →
      List.foldl (appendCapped 100) [] xs = xs.drop (xs.length - 100) ∧
      (List.foldl (appendCapped 100) [] xs).length = 100) ∧
    (10 < xs.length →
      List.foldl (appendCapped 10) [] xs = xs.drop (xs.length - 10) ∧
      (List.foldl (appendCapped 10) [] xs).length = 10) := by
  constructor
  · intro h
    have he := appendCapped_foldl 100 xs [] (by simp)
    constructor
    · rw [he]
      simp
    · rw [he]
      simp only [List.nil_append, List.length_nil, Nat.zero_add, List.length_drop]
      omega
  · intro h
    have he := appendCapped_foldl 10 xs [] (by simp)
    constructor
    · rw [he]
      simp
    · rw [he]
      simp only [List.nil_append, List.length_nil, Nat.zero_add, List.length_drop]
      omega

/-- Witness for the amended C2 theorem at the concrete input `xs101`. -/
theorem c2_history_amended_witness :
    List.foldl (appendCapped 100) [] xs101 = xs101.drop (xs101.length - 100) ∧
    (List.foldl (appendCapped 100) [] xs101).length = 100 :=
  (c2_history_amended xs101).1 (by decide)

/-! Claim C3 -/

/-- A process the table flags by name. -/
def trojanProc : ProcessInfo :=
  { name := "trojan.exe".toList, pid := 4242, cpu_usage := 95,
    memory_usage := 800000000, suspicious_score := 90 }

/-- A process no rule flags: low CPU, low memory, harmless name. -/
def benignProc : ProcessInfo :=
  { name := "notepad".toList, pid := 7, cpu_usage := 1,
    memory_usage := 5000000, suspicious_score := 0 }

/-- Claim C3 counterexample: a successful process-check cycle that flags
nothing does not leave the published suspicious list empty — it keeps the
previous cycle entries.  Here the previous list holds `trojanProc`, the new
cycle fetches only the unflagged `benignProc`, yet the code still publishes
`[trojanProc]` where the claim demands `[]` (the wholesale replacement
`specProcessCycle` computed from the claim wording). -/
theorem c3_counterexample :
    is_process_suspicious benignProc = false ∧
    processCycle [trojanProc] [benignProc] = [trojanProc] ∧
    processCycle [trojanProc] [benignProc] ≠ [] ∧
    specProcessCycle [trojanProc] [benignProc] = [] := by
  decide

/-- Claim C3 (amended): the process-check cycle replaces the published
suspicious list with the freshly flagged set only when that set is non-empty;
a successful cycle that flags no process leaves the previously published list
unchanged (it is not cleared). -/
theorem c3_processCycle_amended (prev fetched : List ProcessInfo) :
    (fetched.filter (fun p => is_process_suspicious p) ≠ [] →
      processCycle prev fetched = fetched.filter (fun p => is_process_suspicious p)) ∧
    ((∀ p ∈ fetched, is_process_suspicious p = false) →
      processCycle prev fetched = prev) := by
  constructor
  · intro h
    simp only [processCycle]
    rw [if_neg]
    simp [List.isEmpty_iff, h]
  · intro h
    have hnil : fetched.filter (fun p => is_process_suspicious p) = [] := by
      rw [List.filter_eq_nil_iff]
      intro p hp
      simp [h p hp]
    simp only [processCycle, hnil]
    rfl

/-- Witness for the amended C3 theorem: a cycle that flags `trojanProc`
publishes exactly the flagged set, and a cycle that flags nothing keeps the
previous list. -/
theorem c3_processCycle_amended_witness :
    processCycle [benignProc] [trojanProc] = [trojanProc] ∧
    processCycle [trojanProc] [benignProc] = [trojanProc] := by
  constructor
  · have h := (c3_processCycle_amended [benignProc] [trojanProc]).1 (by decide)
    exact h.trans (by decide)
  · exact (c3_processCycle_amended [trojanProc] [benignProc]).2 (by decide)

/-! Claim C4 -/

/-- A kernel state with exactly one new USB device and no suspicious process. -/
def oneUsbState : KernelState :=
  { suspicious_processes := [],
    new_usb_devices := [{ device_id := "USB1".toList, description := "drive".toList }] }

/-- A kernel state with exactly one suspicious process of per-process score
100 and no new USB device. -/
def oneProcState : KernelState :=
  { suspicious_processes :=
      [{ name := "virus".toList, pid := 1, cpu_usage := 99, memory_usage := 0,
         suspicious_score := 100 }],
    new_usb_devices := [] }

/-- Claim C4 counterexample: the count factors do not start at 0.7 and 1.0.
With one new USB device the code computes ⌊30·(1+1/3)⌋ = 40, not the 30 the
claim factor 1.0 at count 1 demands; with one suspicious process of score 100
it computes ⌊100·(0.7+0.3·(1/5))⌋ = 76, not the 70 the claim factor 0.7 at
count 1 demands. -/
theorem c4_counterexample :
    kernel_get_threat_score oneUsbState = 40 ∧ (40 : ℕ) ≠ 30 ∧
    kernel_get_threat_score oneProcState = 76 ∧ (76 : ℕ) ≠ 70 := by
  have husb : kernel_get_threat_score oneUsbState = 40 := by
    show min (max 0 (ratToU8 (30 * (1 + ((1 : ℕ) : ℚ) / 3)))) 100 = 40
    have e : (30 : ℚ) * (1 + ((1 : ℕ) : ℚ) / 3) = ((40 : ℕ) : ℚ) := by norm_num
    rw [e, ratToU8_coe_nat 40 (by omega)]
    rfl
  have hproc : kernel_get_threat_score oneProcState = 76 := by
    show min (max (ratToU8 (((100 : ℕ) : ℚ) * (7/10 + 3/10 * (((1 : ℕ) : ℚ) / 5)))) 0) 100 = 76
    have e : ((100 : ℕ) : ℚ) * (7/10 + 3/10 * (((1 : ℕ) : ℚ) / 5)) = ((76 : ℕ) : ℚ) := by
      norm_num
    rw [e, ratToU8_coe_nat 76 (by omega)]
    rfl
  exact ⟨husb, by omega, hproc, by omega⟩

/-- Process-count scale factor as implemented: 0.7 + 0.3·(min(count,5)/5),
which is 0.76 at count 1 and rises to 1.0 at count 5 (count capped at 5). -/
def processCountFactor (count : ℕ) : ℚ := 7/10 + 3/10 * (((min count 5 : ℕ) : ℚ) / 5)

/-- USB-count scale factor as implemented: 1 + min(count,3)/3, which is 4/3 at
count 1 and rises to 2.0 at count 3 (count capped at 3). -/
def usbCountFactor (count : ℕ) : ℚ := 1 + ((min count 3 : ℕ) : ℚ) / 3

/-- Claim C4 (amended): the kernel monitor threat score is
min(max(processScore, usbScore), 100), where processScore is 0 with no
suspicious process and otherwise the truncation of the maximum per-process
score times 0.7+0.3·min(count,5)/5 (0.76 at count 1 rising to 1.0 at count 5),
and usbScore is 0 with no new USB device and otherwise the truncation of 30
times 1+min(count,3)/3 (4/3 at count 1 rising to 2.0 at count 3). -/
theorem c4_kernel_score_amended (s : KernelState) :
    kernel_get_threat_score s =
      min (max
        (if s.suspicious_processes.isEmpty then 0
         else ratToU8
           ((((s.suspicious_processes.map (fun p => p.suspicious_score)).foldl max 0 : ℕ) : ℚ) *
             processCountFactor s.suspicious_processes.length))
        (if s.new_usb_devices.isEmpty then 0
         else ratToU8 (30 * usbCountFactor s.new_usb_devices.length))) 100 ∧
    processCountFactor 1 = 19/25 ∧ processCountFactor 5 = 1 ∧
    usbCountFactor 1 = 4/3 ∧ usbCountFactor 3 = 2 := by
  refine ⟨rfl, ?_, ?_, ?_, ?_⟩
  · show (7 : ℚ)/10 + 3/10 * (((1 : ℕ) : ℚ) / 5) = 19/25
    norm_num
  · show (7 : ℚ)/10 + 3/10 * (((5 : ℕ) : ℚ) / 5) = 1
    norm_num
  · show (1 : ℚ) + ((1 : ℕ) : ℚ) / 3 = 4/3
    norm_num
  · show (1 : ℚ) + ((3 : ℕ) : ℚ) / 3 = 2
    norm_num

/-! Claim C5 -/

theorem micRun_power_nonneg (evts : List MicEvent) : 0 ≤ (micRun evts).frequency_power := by
  suffices h : ∀ s : MicState, 0 ≤ s.frequency_power →
      0 ≤ (evts.foldl micStep s).frequency_power by
    exact h micInit (le_refl 0)
  induction evts with
  | nil =>
    intro s hs
    exact hs
  | cons e t ih =>
    intro s hs
    rw [List.foldl_cons]
    apply ih
    cases e with
    | startEvt => exact hs
    | stopEvt => exact hs
    | detect p =>
      simp only [micStep]
      split
      · rename_i hp
        exact le_of_lt (lt_trans (by norm_num) hp)
      · exact hs

theorem foldl_micStep_no_latch : ∀ (evts : List MicEvent) (s : MicState),
    s.high_freq_detected = false → (∀ p : ℚ, MicEvent.detect p ∈ evts → p ≤ 1/5) →
    (evts.foldl micStep s).high_freq_detected = false := by
  intro evts
  induction evts with
  | nil =>
    intro s hs _
    exact hs
  | cons e t ih =>
    intro s hs h
    rw [List.foldl_cons]
    apply ih
    · cases e with
      | startEvt => exact hs
      | stopEvt => exact hs
      | detect p =>
        have hp : p ≤ 1/5 := h p (List.mem_cons_self _ _)
        simp only [micStep]
        rw [if_neg (not_lt.mpr hp)]
        exact hs
    · intro p hp
      exact h p (List.mem_cons_of_mem e hp)

/-- Claim C5: the microphone threat score is 0 in every state reachable
without a band power above 0.2; once the flag has latched the score equals
clamp(50 + storedPower·500, 50, 100) (truncated to u8); the latch is sticky —
no operation, `stop_monitoring` included, clears it — and a later detection
only overwrites the stored power (and re-asserts the flag). -/
theorem c5_mic_score :
    (∀ evts : List MicEvent, (∀ p : ℚ, MicEvent.detect p ∈ evts → p ≤ 1/5) →
      (micRun evts).high_freq_detected = false ∧ mic_get_threat_score (micRun evts) = 0) ∧
    (∀ evts : List MicEvent, (micRun evts).high_freq_detected = true →
      mic_get_threat_score (micRun evts) =
        ratToU8 (max 50 (min (50 + (micRun evts).frequency_power * 500) 100))) ∧
    (∀ (s : MicState) (e : MicEvent), s.high_freq_detected = true →
      (micStep s e).high_freq_detected = true) ∧
    (∀ s : MicState, (micStep s MicEvent.stopEvt).high_freq_detected = s.high_freq_detected ∧
      (micStep s MicEvent.stopEvt).frequency_power = s.frequency_power) ∧
    (∀ (s : MicState) (p : ℚ), 1/5 < p →
      (micStep s (MicEvent.detect p)).high_freq_detected = true ∧
      (micStep s (MicEvent.detect p)).frequency_power = p) := by
  refine ⟨?_, ?_, ?_, ?_, ?_⟩
  · intro evts h
    have hf : (micRun evts).high_freq_detected = false :=
      foldl_micStep_no_latch evts micInit rfl h
    refine ⟨hf, ?_⟩
    simp [mic_get_threat_score, hf]
  · intro evts h
    have hpow := micRun_power_nonneg evts
    have h50 : (50 : ℚ) ≤ 50 + (micRun evts).frequency_power * 500 := by nlinarith
    simp only [mic_get_threat_score, h, if_true]
    rcases le_or_lt (50 + (micRun evts).frequency_power * 500) 100 with hc | hc
    · rw [if_neg (not_lt.mpr hc), min_eq_left hc, max_eq_right h50]
    · rw [if_pos hc, min_eq_right (le_of_lt hc), max_eq_right (by norm_num)]
  · intro s e h
    cases e with
    | startEvt => exact h
    | stopEvt => exact h
    | detect p =>
      simp only [micStep]
      split
      · rfl
      · exact h
  · intro s
    exact ⟨rfl, rfl⟩
  · intro s p hp
    simp only [micStep]
    rw [if_pos hp]
    exact ⟨rfl, rfl⟩

/-- Witness for C5 at concrete inputs: a run with only a sub-threshold
detection scores 0; a run with a 0.3 detection latches and scores by the
clamp formula; stopping a latched state keeps the latch; a detection stores
its power. -/
theorem c5_mic_score_witness :
    mic_get_threat_score (micRun [MicEvent.detect (1/10)]) = 0 ∧
    mic_get_threat_score (micRun [MicEvent.detect (3/10)]) =
      ratToU8 (max 50 (min (50 + (micRun [MicEvent.detect (3/10)]).frequency_power * 500) 100)) ∧
    (micStep { is_monitoring := true, high_freq_detected := true, frequency_power := 3/10 }
      MicEvent.stopEvt).high_freq_detected = true ∧
    (micStep micInit (MicEvent.detect (3/10))).frequency_power = 3/10 := by
  have hlatch : (micRun [MicEvent.detect (3/10)]).high_freq_detected = true := by
    simp only [micRun, List.foldl_cons, List.foldl_nil, micStep]
    rw [if_pos (by norm_num)]
  refine ⟨(c5_mic_score.1 [MicEvent.detect (1/10)] ?_).2, c5_mic_score.2.1 _ hlatch, ?_,
    (c5_mic_score.2.2.2.2 micInit (3/10) (by norm_num)).2⟩
  · intro p hp
    simp only [List.mem_singleton, MicEvent.detect.injEq] at hp
    rw [hp]
    norm_num
  · exact c5_mic_score.2.2.1 _ MicEvent.stopEvt rfl

/-! Claim C6 -/

theorem flipIfQ (a b x : ℚ) : (if b < a then x else 0) = (if a ≤ b then 0 else x) := by
  rcases le_or_lt a b with hc | hc
  · rw [if_neg (not_lt.mpr hc), if_pos hc]
  · rw [if_pos hc, if_neg (not_le.mpr hc)]

/-- Claim C6: the thermal threat score is exactly 80 whenever the spike flag
is latched, regardless of the histories; when not spiked and both histories
are non-empty it is the truncation of the sum of three capped terms:
(avgTemp−60)·2 capped at 40 (0 when avgTemp ≤ 60), (avgCPU−80)·2 capped at 40
(0 when avgCPU ≤ 80), and the sample variance of the temperature history
(over n−1, 0 below 2 samples) times 10 capped at 20. -/
theorem c6_thermal_score (s : ThermalState) :
    (s.spike_detected = true → thermal_get_threat_score s = 80) ∧
    (s.spike_detected = false → s.temperature_history ≠ [] → s.cpu_usage_history ≠ [] →
      thermal_get_threat_score s =
        ratToU8 ((if listMean s.temperature_history ≤ 60 then 0
            else min ((listMean s.temperature_history - 60) * 2) 40) +
          (if listMean s.cpu_usage_history ≤ 80 then 0
            else min ((listMean s.cpu_usage_history - 80) * 2) 40) +
          min (sampleVariance s.temperature_history * 10) 20)) := by
  constructor
  · intro h
    simp [thermal_get_threat_score, h]
  · intro h h1 h2
    have e1 : s.temperature_history.isEmpty = false := by
      simp [List.isEmpty_iff, h1]
    have e2 : s.cpu_usage_history.isEmpty = false := by
      simp [List.isEmpty_iff, h2]
    simp only [thermal_get_threat_score, h, e1, e2, Bool.not_false, Bool.and_self,
      Bool.false_eq_true, if_false, if_true]
    rw [flipIfQ (listMean s.temperature_history) 60 (min ((listMean s.temperature_history - 60) * 2) 40),
      flipIfQ (listMean s.cpu_usage_history) 80 (min ((listMean s.cpu_usage_history - 80) * 2) 40)]

/-- A state with the spike flag latched and no history. -/
def spikedState : ThermalState :=
  { last_temp := 50, spike_detected := true, temperature_history := [],
    cpu_usage_history := [] }

/-- A calm state: average temperature 70, average CPU 90, zero variance. -/
def calmState : ThermalState :=
  { last_temp := 70, spike_detected := false, temperature_history := [70, 70],
    cpu_usage_history := [90, 90] }

/-- Witness for C6: the spiked state scores 80 and the calm state scores by
the three-term formula. -/
theorem c6_thermal_score_witness :
    thermal_get_threat_score spikedState = 80 ∧
    thermal_get_threat_score calmState =
      ratToU8 ((if listMean calmState.temperature_history ≤ 60 then 0
          else min ((listMean calmState.temperature_history - 60) * 2) 40) +
        (if listMean calmState.cpu_usage_history ≤ 80 then 0
          else min ((listMean calmState.cpu_usage_history - 80) * 2) 40) +
        min (sampleVariance calmState.temperature_history * 10) 20) :=
  ⟨(c6_thermal_score spikedState).1 rfl,
   (c6_thermal_score calmState).2 rfl (by decide) (by decide)⟩

/-! Claim C7 -/

theorem nameFloorStep_foldl_ge (lname : List Char) :
    ∀ (tbl : List (List Char × ℕ)) (s : ℕ), s ≤ tbl.foldl (nameFloorStep lname) s := by
  intro tbl
  induction tbl with
  | nil =>
    intro s
    exact le_refl s
  | cons kv t ih =>
    intro s
    rw [List.foldl_cons]
    refine le_trans ?_ (ih (nameFloorStep lname s kv))
    simp only [nameFloorStep]
    split
    · exact le_max_left s kv.2
    · exact le_refl s

/-- Claim C7: a process whose name contains "xmrig-miner" receives a
per-process suspicion score of at least 70 for every CPU percentage and
memory reading — the keyword floors only raise the banded score and the final
cap at 100 never brings it below 70. -/
theorem c7_xmrig_floor (name : List Char) (cpu memory : ℚ)
    (h : ( "xmrig-miner".toList) <:+: name) :
    70 ≤ calculate_process_score name cpu memory := by
  have hlow : lowerList ( "xmrig-miner".toList) = ( "xmrig-miner".toList) := by decide
  have hmap : ( "xmrig-miner".toList) <:+: lowerList name := by
    obtain ⟨u, v, huv⟩ := h
    refine ⟨lowerList u, lowerList v, ?_⟩
    rw [← hlow]
    simp only [lowerList, ← List.map_append]
    rw [huv]
  have h5 : ( "xmrig".toList) <:+: ( "xmrig-miner".toList) :=
    ⟨[], ( "-miner".toList), by decide⟩
  have hc : containsSub (lowerList name) ( "xmrig".toList) = true :=
    containsSub_of_infix (h5.trans hmap)
  unfold calculate_process_score
  refine le_min ?_ (by norm_num)
  rw [suspiciousNameScores, List.foldl_cons, List.foldl_cons]
  refine le_trans ?_ (nameFloorStep_foldl_ge (lowerList name) _ _)
  simp only [nameFloorStep, hc, if_true]
  exact le_max_right _ 70

/-- Witness for C7: the literal process name scores at least 70 at CPU 0 and
memory 0. -/
theorem c7_xmrig_floor_witness :
    70 ≤ calculate_process_score ( "xmrig-miner".toList) 0 0 :=
  c7_xmrig_floor ( "xmrig-miner".toList) 0 0 List.infix_rfl

/-! Claim C8 -/

/-- Claim C8: a mail cycle whose fetch of message bodies returns an error
leaves the previously published scored-URL list and the mail score completely
unchanged — no piecemeal update, no clearing, and no further fetch occurs in
the cycle. -/
theorem c8_mail_error_atomic (urls : List (List Char × ℕ)) (score : ℕ) (e : String) :
    emailCycle urls score (Except.error e) = (urls, score) := rfl

/-! Claim C9 -/

/-- stop() immediately followed by start(), after which the old loop and the
new loop each perform their next flag check. -/
def staleRestartTrace : List LoopEvent :=
  [LoopEvent.startCall, LoopEvent.stopCall, LoopEvent.startCall,
   LoopEvent.observe 0, LoopEvent.observe 1]

/-- Claim C9 counterexample: stop() then immediately start() restores the
shared flag before the old loop got to its next check, so the old loop
observes true and keeps running next to the new loop — two loops of the same
sensor run concurrently and both observed the flag as true. -/
theorem c9_counterexample :
    (loopRun staleRestartTrace).loops_alive = [true, true] ∧
    (loopRun staleRestartTrace).observations = [(0, true), (1, true)] ∧
    ¬((loopRun staleRestartTrace).loops_alive.count true ≤ 1) := by
  decide

/-- Claim C9 (amended): cancellation is cooperative only — while the flag is
false, any loop performing its check exits, and once every old loop has
exited a start() leaves exactly one running loop; but a stop() followed
immediately by start(), with no intervening check by the old loop, leaves two
loops running concurrently (see the counterexample trace). -/
theorem c9_lifecycle_amended :
    (∀ (s : LoopSystem) (i : ℕ), s.running_flag = false →
      (loopStep s (LoopEvent.observe i)).loops_alive.getD i false = false) ∧
    (∀ s : LoopSystem, s.loops_alive.count true = 0 →
      (loopStep s LoopEvent.startCall).loops_alive.count true = 1) := by
  constructor
  · intro s i hflag
    simp only [loopStep]
    split
    · split
      · rename_i hlt halive
        rw [hflag]
        simp [List.getD_eq_getElem?_getD, List.getElem?_set_self, hlt]
      · rename_i hlt halive
        simp only [Bool.not_eq_true] at halive
        rw [List.get_eq_getElem] at halive
        simp [List.getD_eq_getElem?_getD, List.getElem?_eq_getElem hlt, halive]
    · rename_i hge
      simp only [Nat.not_lt] at hge
      simp [List.getD_eq_getElem?_getD, List.getElem?_eq_none hge]
  · intro s h
    simp only [loopStep]
    rw [List.count_append, h]
    decide

/-- Witness for the amended C9 theorem: a stopped single-loop system exits its
loop on the next check, and starting from a system with no running loop
yields exactly one. -/
theorem c9_lifecycle_amended_witness :
    (loopStep { running_flag := false, loops_alive := [true], observations := [] }
      (LoopEvent.observe 0)).loops_alive.getD 0 false = false ∧
    (loopStep { running_flag := true, loops_alive := [false, false], observations := [] }
      LoopEvent.startCall).loops_alive.count true = 1 :=
  ⟨c9_lifecycle_amended.1 _ 0 rfl, c9_lifecycle_amended.2 _ (by decide)⟩

/-! Claim C10 -/

/-- Claim C10: `fetch_emails` never propagates a connect or login failure —
it returns Ok with the two fixed sample bodies, as it does for a successful
fetch with zero bodies; the first sample URL contains "login", so a failed
mail login makes the mail cycle publish the freshly scored sample list and a
mail score of 70 instead of leaving the prior list and score untouched. -/
theorem c10_fetch_fallback (e : String) (urls : List (List Char × ℕ)) (score : ℕ) :
    fetch_emails (ImapOutcome.connectFail e) = Except.ok sampleBodies ∧
    fetch_emails (ImapOutcome.fetched []) = Except.ok sampleBodies ∧
    scan_urls (extract_urls sampleBodies) = scoredSampleUrls ∧
    containsSub ( "https://example.com/login".toList) ( "login".toList) = true ∧
    emailCycle urls score (fetch_emails (ImapOutcome.connectFail e)) = (scoredSampleUrls, 70) := by
  refine ⟨rfl, rfl, by decide, by decide, ?_⟩
  show (scan_urls (extract_urls sampleBodies),
    ((scan_urls (extract_urls sampleBodies)).map (fun u => u.2)).foldl max 0) =
    (scoredSampleUrls, 70)
  decide

end ThreatSentry
